import Mathlib

/-!
Verification of the video-to-plan pipeline (src/video_to_plan.py) and its
promotion utility (src/promote_plan.py) against the natural-language
specification. Python strings are modelled as `List Char` (a Python `str`
is a sequence of Unicode code points); fallible code returns `Option`
(`none` models an uncaught exception); the filesystem- and network-touching
driver is modelled as a pure function from its environment (which files
exist, which credentials resolve) to the sequence of effectful actions it
performs plus its exit outcome.
-/

/-- Characters of a Lean string literal, as the `List Char` model of a
Python `str`. -/
def chars (s : String) : List Char := s.data

/-- Python `str.isspace` truth for the characters `str.strip()` removes:
ASCII whitespace, the ASCII separator controls, and the Unicode space
characters (Python strips exactly the characters for which `str.isspace()`
holds). -/
def pyIsSpace (c : Char) : Bool :=
  c = ' ' || c = '\t' || c = '\n' || c = '\r' ||
  c = Char.ofNat 11 || c = Char.ofNat 12 ||
  c = Char.ofNat 28 || c = Char.ofNat 29 || c = Char.ofNat 30 || c = Char.ofNat 31 ||
  c = Char.ofNat 133 || c = Char.ofNat 160 || c = Char.ofNat 5760 ||
  (8192 ≤ c.toNat && c.toNat ≤ 8202) ||
  c = Char.ofNat 8232 || c = Char.ofNat 8233 || c = Char.ofNat 8239 ||
  c = Char.ofNat 8287 || c = Char.ofNat 12288

/-- Left half of Python `str.strip()`: drop leading whitespace. -/
def stripLt (s : List Char) : List Char := s.dropWhile pyIsSpace

/-- Right half of Python `str.strip()`: drop trailing whitespace. -/
def stripRt (s : List Char) : List Char := (stripLt s.reverse).reverse

/-- Python `text.strip()`: drop leading and trailing whitespace. -/
def pyStrip (s : List Char) : List Char := stripLt (stripRt s)

/-- The backtick character (code point 96). -/
def backtick : Char := Char.ofNat 96

/-- The three-character code-fence marker, Python's literal of three
backticks used by `_strip_fences`. -/
def fence : List Char := [backtick, backtick, backtick]

/-- Python `text.split("\n", 1)[1]`: the part of `s` after its first
newline, or `none` when `s` has no newline — in that case the Python
subscript `[1]` raises an uncaught `IndexError`. -/
def afterFirstNL : List Char → Option (List Char)
  | [] => none
  | c :: rest => if c = '\n' then some rest else afterFirstNL rest

/-- Python `pat in s` on strings: does `pat` occur as a contiguous
substring of `s`? -/
def occursIn (pat : List Char) : List Char → Bool
  | [] => pat.isPrefixOf []
  | c :: rest => pat.isPrefixOf (c :: rest) || occursIn pat rest

/-- Python `s.rsplit(pat, 1)[0]` for a non-empty `pat`: everything before
the last occurrence of `pat` in `s`, or all of `s` when `pat` does not
occur. -/
def rsplitBefore (pat : List Char) : List Char → List Char
  | [] => []
  | c :: rest =>
    if occursIn pat rest then c :: rsplitBefore pat rest
    else if pat.isPrefixOf (c :: rest) then []
    else c :: rsplitBefore pat rest

/-- The function `_strip_fences` of src/video_to_plan.py, line for line:
strip the text, and when it starts with a triple-backtick fence drop the
first line (`text.split("\n", 1)[1]` — `none` models the `IndexError` this
subscript raises when the stripped text has no newline), drop a trailing
triple-backtick fence via `text.rsplit` when one is present, and strip
again. -/
def pyStripFences (s : List Char) : Option (List Char) :=
  let t := pyStrip s
  if fence.isPrefixOf t then
    match afterFirstNL t with
    | none => none
    | some t1 =>
      let t2 := if fence.isSuffixOf t1 then rsplitBefore fence t1 else t1
      some (pyStrip t2)
  else
    some t

example : pyStripFences (chars "```json\nhi\n```") = some (chars "hi") := by decide
example : pyStripFences (chars "  plain  ") = some (chars "plain") := by decide
example : pyStripFences (chars "```") = none := by decide
example : pyStripFences (chars "```\n") = none := by decide
example : pyStripFences (chars "```json\nno trailing fence") =
    some (chars "no trailing fence") := by decide

/-- Decimal digit characters, as Python renders them. -/
def digitChar : Nat → Char
  | 0 => '0' | 1 => '1' | 2 => '2' | 3 => '3' | 4 => '4'
  | 5 => '5' | 6 => '6' | 7 => '7' | 8 => '8' | _ => '9'

/-- Accumulator for `natDec`: prepend the decimal digits of `n` to `acc`. -/
def natDecAux : Nat → Nat → List Char → List Char
  | 0, _, acc => acc
  | _, 0, acc => acc
  | fuel + 1, n + 1, acc =>
    natDecAux fuel ((n + 1) / 10) (digitChar ((n + 1) % 10) :: acc)

/-- Python `str(n)` for a non-negative integer: its decimal rendering. The
fuel argument `n` always suffices, since a positive number has no more
decimal digits than its value. -/
def natDec (n : Nat) : List Char := if n = 0 then ['0'] else natDecAux n n []

/-- Python `str(n)` for an arbitrary integer. -/
def intDec : Int → List Char
  | .ofNat n => natDec n
  | .negSucc n => '-' :: natDec (n + 1)

/-- The pure core of `_elapsed` (src/video_to_plan.py lines 87-92): given
the whole-second count `secs = int(time.time() - start)` (non-negative in
every run, since `start` is an earlier reading of the same clock), render
it as the code's f-strings do. -/
def elapsedFormat (secs : Nat) : List Char :=
  if secs < 60 then natDec secs ++ chars "s"
  else natDec (secs / 60) ++ chars "m " ++ natDec (secs % 60) ++ chars "s"

example : elapsedFormat 0 = chars "0s" := by decide
example : elapsedFormat 59 = chars "59s" := by decide
example : elapsedFormat 60 = chars "1m 0s" := by decide
example : elapsedFormat 125 = chars "2m 5s" := by decide
example : elapsedFormat 3601 = chars "60m 1s" := by decide

/-- State of the streaming accumulator loop shared by `_stream_gemini`
(src/video_to_plan.py lines 111-138) and the phase-3 stream loop: the list
`chunks`, the counters `char_count` and `last_report`, and the number of
periodic progress lines printed so far. -/
structure StreamSt where
  chunks : List (List Char)
  charCount : Nat
  lastReport : Nat
  reports : Nat
deriving DecidableEq, Repr

/-- One iteration of the `for chunk in response` loop of `_stream_gemini`:
a chunk whose `.text` is `None` or empty is skipped (Python
`if chunk.text:`), otherwise the text is appended, the character count
advanced, and a progress line emitted when at least 2000 characters
arrived since the last one. -/
def streamStep (st : StreamSt) (c : Option (List Char)) : StreamSt :=
  match c with
  | none => st
  | some t =>
    if t.isEmpty then st
    else
      let cc := st.charCount + t.length
      if 2000 ≤ cc - st.lastReport then
        { chunks := st.chunks ++ [t], charCount := cc, lastReport := cc,
          reports := st.reports + 1 }
      else
        { chunks := st.chunks ++ [t], charCount := cc, lastReport := st.lastReport,
          reports := st.reports }

/-- Initial accumulator state (`chunks = []`, `char_count = 0`,
`last_report = 0`). -/
def streamInit : StreamSt := ⟨[], 0, 0, 0⟩

/-- The whole accumulation loop of `_stream_gemini` over a finite stream of
chunk texts (`none` models a chunk whose `.text` is `None`). -/
def streamGemini (stream : List (Option (List Char))) : StreamSt :=
  stream.foldl streamStep streamInit

/-- Python `"".join(chunks)` on the final state: the string
`_stream_gemini` returns. -/
def streamResult (stream : List (Option (List Char))) : List Char :=
  (streamGemini stream).chunks.flatten

example : streamResult [some (chars "ab"), none, some (chars ""), some (chars "cd")] =
    chars "abcd" := by decide

/-- The value of argparse's `--phase` option in `main`
(src/video_to_plan.py line 467): absent, or one of the choices 1, 2, 3. -/
inductive PhaseSel where
  | all | p1 | p2 | p3
deriving DecidableEq, Repr

/-- Python `phases_to_run = [1, 2, 3] if args.phase is None else
[args.phase]` (line 477). -/
def phasesToRun : PhaseSel → List Nat
  | .all => [1, 2, 3]
  | .p1 => [1]
  | .p2 => [2]
  | .p3 => [3]

/-- Environment of one `main` invocation of src/video_to_plan.py: the
parsed `--phase` option, whether each API key resolves (CLI flag or
environment variable), whether the input files exist, which cache files
exist in `<output-parent>/.cache`, and the resolved path strings the error
messages interpolate. -/
structure Args where
  phase : PhaseSel
  geminiKey : Bool
  openaiKey : Bool
  videoExists : Bool
  srtExists : Bool
  cacheHasVisual : Bool
  cacheHasSynthesis : Bool
  cacheDirStr : List Char
  videoPathStr : List Char
  srtPathStr : List Char

/-- Provenance of a document flowing between phases: produced by a phase's
remote call in this run, or loaded from a cache file. -/
inductive Doc where
  | fromPhase1 | fromCacheVisual | fromPhase2 | fromCacheSynthesis
deriving DecidableEq, Repr

/-- Effectful actions `main` performs, in program order. `runPhase1` is
the whole of `run_phase1` — the video upload, the processing poll, the
Gemini stream and the cache write; `runPhase2`/`runPhase3` likewise cover
those phases' remote calls and writes, and record the document each was
handed as input. -/
inductive DriverAct where
  | mkCacheDir
  | runPhase1
  | loadCachedVisual
  | runPhase2 (visual : Option Doc)
  | loadCachedSynthesis
  | runPhase3 (synthesis : Option Doc)
deriving DecidableEq, Repr

/-- The distinct fatal diagnostics `main` can print before `sys.exit(1)`. -/
inductive ErrMsg where
  | missingGeminiKey
  | missingOpenAIKey
  | videoNotFound
  | subtitleNotFound
  | phase2NeedsVisual
  | phase3NeedsSynthesis
deriving DecidableEq, Repr

/-- Text of each fatal diagnostic, exactly as `main` prints it to stderr
(lines 480, 483, 494, 497, 521, 534), with the run's resolved paths
interpolated. -/
def errMsgText (a : Args) : ErrMsg → List Char
  | .missingGeminiKey =>
    chars "Error: Gemini API key required for phases 1-2. Set GEMINI_API_KEY or use --gemini-key."
  | .missingOpenAIKey =>
    chars "Error: OpenAI API key required for phase 3. Set OPENAI_API_KEY or use --openai-key."
  | .videoNotFound => chars "Error: Video file not found: " ++ a.videoPathStr
  | .subtitleNotFound => chars "Error: Subtitle file not found: " ++ a.srtPathStr
  | .phase2NeedsVisual =>
    chars "Error: Phase 2 requires visual_analysis.json in " ++ a.cacheDirStr ++
      chars ". Run phase 1 first."
  | .phase3NeedsSynthesis =>
    chars "Error: Phase 3 requires synthesis.json in " ++ a.cacheDirStr ++
      chars ". Run phase 2 first."

/-- Process exit code of a run: every fatal diagnostic exits via
`sys.exit(1)`, a completed run falls off the end of `main` (code 0). -/
def exitCodeOf : Option ErrMsg → Nat
  | some _ => 1
  | none => 0

/-- Credential validation of `main` (lines 479-484): Gemini key when the
requested subset meets `[1, 2]`, then OpenAI key when it contains 3. This
runs before any path is resolved or touched. -/
def credCheck (a : Args) : Option ErrMsg :=
  let phases := phasesToRun a.phase
  if phases.any (fun p => p == 1 || p == 2) && !a.geminiKey then some .missingGeminiKey
  else if phases.contains 3 && !a.openaiKey then some .missingOpenAIKey
  else none

/-- Input-file existence checks of `main` (lines 493-498), in order. -/
def fileCheck (a : Args) : Option ErrMsg :=
  if !a.videoExists then some .videoNotFound
  else if !a.srtExists then some .subtitleNotFound
  else none

/-- Phase-1 block of `main` (lines 511-522): run phase 1 when requested,
else load the cached visual analysis when present, else fail when phase 2
is requested. Returns (phase-1 output, actions, fatal error). -/
def stage1 (a : Args) (phases : List Nat) : Option Doc × List DriverAct × Option ErrMsg :=
  if phases.contains 1 then (some Doc.fromPhase1, [DriverAct.runPhase1], none)
  else if a.cacheHasVisual then (some Doc.fromCacheVisual, [DriverAct.loadCachedVisual], none)
  else if phases.any (fun p => p == 2) then (none, [], some ErrMsg.phase2NeedsVisual)
  else (none, [], none)

/-- Phase-2 block of `main` (lines 525-535): run phase 2 on the phase-1
document when requested, else load the cached synthesis when present, else
fail when phase 3 is requested. -/
def stage2 (a : Args) (phases : List Nat) (va : Option Doc) :
    Option Doc × List DriverAct × Option ErrMsg :=
  if phases.contains 2 then (some Doc.fromPhase2, [DriverAct.runPhase2 va], none)
  else if a.cacheHasSynthesis then (some Doc.fromCacheSynthesis, [DriverAct.loadCachedSynthesis], none)
  else if phases.contains 3 then (none, [], some ErrMsg.phase3NeedsSynthesis)
  else (none, [], none)

/-- The whole of `main` (src/video_to_plan.py lines 451-545) as a pure
function of its environment: the ordered list of effectful actions it
performs and the fatal error it exits with, if any. The cache directory
is created (line 491) after the credential checks but before the
input-file checks; reads of the subtitle file and `print` calls are not
modelled as actions. -/
def mainRun (a : Args) : List DriverAct × Option ErrMsg :=
  let phases := phasesToRun a.phase
  match credCheck a with
  | some m => ([], some m)
  | none =>
    match fileCheck a with
    | some m => ([DriverAct.mkCacheDir], some m)
    | none =>
      match stage1 a phases with
      | (_, t1, some m) => (DriverAct.mkCacheDir :: t1, some m)
      | (va, t1, none) =>
        match stage2 a phases va with
        | (_, t2, some m) => (DriverAct.mkCacheDir :: (t1 ++ t2), some m)
        | (syn, t2, none) =>
          let t3 := if phases.contains 3 then [DriverAct.runPhase3 syn] else []
          (DriverAct.mkCacheDir :: (t1 ++ t2 ++ t3), none)

example :
    mainRun ⟨.p3, false, true, true, true, false, false, [], [], []⟩ =
      ([DriverAct.mkCacheDir], some .phase3NeedsSynthesis) := by decide
example :
    mainRun ⟨.p2, true, false, true, true, true, false, [], [], []⟩ =
      ([DriverAct.mkCacheDir, DriverAct.loadCachedVisual,
        DriverAct.runPhase2 (some Doc.fromCacheVisual)], none) := by decide
example :
    mainRun ⟨.all, true, true, true, true, false, false, [], [], []⟩ =
      ([DriverAct.mkCacheDir, DriverAct.runPhase1,
        DriverAct.runPhase2 (some Doc.fromPhase1),
        DriverAct.runPhase3 (some Doc.fromPhase2)], none) := by decide
example :
    mainRun ⟨.p3, false, false, true, true, false, true, [], [], []⟩ =
      ([], some .missingOpenAIKey) := by decide

/-- Environment of one `promote` call of src/promote_plan.py: the target
name, whether `<output_root>/<name>` already exists, which of the two
fixed artifact files the source cache holds, and the strings the metadata
and README interpolate (`datetime.now()` renderings and resolved source
paths). `main` has already checked that the plan file exists. -/
structure PromoteEnv where
  name : List Char
  destExists : Bool
  cacheHasVisual : Bool
  cacheHasSynthesis : Bool
  dateStr : List Char
  timestampStr : List Char
  planPathStr : List Char
  cacheDirStr : List Char

/-- The one fatal error `promote` itself raises: the destination
directory already exists (src/promote_plan.py lines 24-27,
`sys.exit(1)`). -/
inductive PromoteErr where
  | destExists
deriving DecidableEq, Repr

/-- Exit code of a promotion: the destination-exists diagnostic exits via
`sys.exit(1)`, success returns normally. -/
def promoteExit : Option PromoteErr → Nat
  | some _ => 1
  | none => 0

/-- The metadata document `promote` writes to `artifacts/metadata.json`
(lines 47-53). -/
structure PromoteMeta where
  name : List Char
  promotedAt : List Char
  sourcePlan : List Char
  sourceCache : List Char
  artifacts : List (List Char)
deriving DecidableEq

/-- Filesystem mutations `promote` performs, in program order. -/
inductive FsOp where
  | mkdirDest
  | mkdirArtifacts
  | copyPlanToPRD
  | copyArtifact (filename : List Char)
  | writeMetadata (m : PromoteMeta)
  | writeReadme (readme : List (List Char))
deriving DecidableEq

/-- The fixed artifact filenames `promote` iterates over (line 39). -/
def artifactNames : List (List Char) :=
  [chars "visual_analysis.json", chars "synthesis.json"]

/-- Python `(cache_dir / filename).exists()` for the two artifact
filenames, read off the environment. -/
def cacheHasFile (e : PromoteEnv) (f : List Char) : Bool :=
  if f = chars "visual_analysis.json" then e.cacheHasVisual
  else if f = chars "synthesis.json" then e.cacheHasSynthesis
  else false

/-- The `copied_artifacts` list `promote` accumulates (lines 38-44): the
fixed filenames, in order, that exist in the source cache. -/
def copiedArtifacts (e : PromoteEnv) : List (List Char) :=
  artifactNames.filter (cacheHasFile e)

/-- README bullet for the plan document (line 66). -/
def prdBullet : List Char := chars "- **PRD.md** — Product Requirements Document"

/-- README bullet for the visual-analysis artifact (line 69). -/
def vaBullet : List Char :=
  chars "- **artifacts/visual_analysis.json** — Timestamped visual observations from source video"

/-- README bullet for the synthesis artifact (line 71). -/
def synBullet : List Char :=
  chars "- **artifacts/synthesis.json** — Synthesized pain points, workflows, and requirements"

/-- README bullet for the metadata file (line 72). -/
def metaBullet : List Char := chars "- **artifacts/metadata.json** — Promotion metadata"

/-- The `readme_lines` list `promote` builds (lines 59-73): fixed header
and always-present PRD bullet, then one bullet per artifact actually
copied, then the metadata bullet and a trailing blank line. -/
def readmeLines (e : PromoteEnv) (copied : List (List Char)) : List (List Char) :=
  [chars "# " ++ e.name,
   chars "",
   chars "Engineering plan promoted on " ++ e.dateStr ++ chars ".",
   chars "",
   chars "## Contents",
   chars "",
   prdBullet]
  ++ (if copied.contains (chars "visual_analysis.json") then [vaBullet] else [])
  ++ (if copied.contains (chars "synthesis.json") then [synBullet] else [])
  ++ [metaBullet, chars ""]

/-- Python `"\n".join(readme_lines)`: the README.md content written at
line 75. -/
def readmeContent (e : PromoteEnv) (copied : List (List Char)) : List Char :=
  List.intercalate (chars "\n") (readmeLines e copied)

/-- The function `promote` of src/promote_plan.py (lines 22-78) as a pure
function of its environment: the ordered filesystem mutations it performs
and its fatal error, if any. When the destination exists it prints the
diagnostic and exits 1 before touching anything (lines 23-27); otherwise
it creates the directories, copies the plan, copies each cached artifact
that exists, writes the metadata document and writes the README. -/
def promote (e : PromoteEnv) : List FsOp × Option PromoteErr :=
  if e.destExists then ([], some PromoteErr.destExists)
  else
    let copied := copiedArtifacts e
    let md : PromoteMeta := ⟨e.name, e.timestampStr, e.planPathStr, e.cacheDirStr, copied⟩
    ([FsOp.mkdirDest, FsOp.mkdirArtifacts, FsOp.copyPlanToPRD]
      ++ copied.map FsOp.copyArtifact
      ++ [FsOp.writeMetadata md, FsOp.writeReadme (readmeLines e copied)], none)

example :
    promote ⟨chars "x", true, true, true, [], [], [], []⟩ =
      ([], some PromoteErr.destExists) := by decide
example :
    (promote ⟨chars "x", false, true, false, [], [], [], []⟩).1 =
      [FsOp.mkdirDest, FsOp.mkdirArtifacts, FsOp.copyPlanToPRD,
       FsOp.copyArtifact (chars "visual_analysis.json"),
       FsOp.writeMetadata ⟨chars "x", [], [], [], [chars "visual_analysis.json"]⟩,
       FsOp.writeReadme (readmeLines ⟨chars "x", false, true, false, [], [], [], []⟩
         [chars "visual_analysis.json"])] := by decide

mutual

/-- A Python object as `json.loads` produces it and `json.dumps` consumes
it: `None`, `bool`, `int`, `str`, `list`, `dict` with string keys.
Floating-point numbers are not modelled (their rendering is all-ASCII and
plays no role in the escaping claims). -/
inductive PyJson where
  | null
  | boolean (b : Bool)
  | int (n : Int)
  | str (s : List Char)
  | arr (items : PyList)
  | obj (fields : PyObj)

/-- A Python list of JSON values. -/
inductive PyList where
  | nil
  | cons (hd : PyJson) (tl : PyList)

/-- A Python dict of string keys and JSON values, in insertion order. -/
inductive PyObj where
  | nil
  | cons (key : List Char) (val : PyJson) (tl : PyObj)

end

/-- Hexadecimal digit characters, lowercase as Python prints them. -/
def hexDigit : Nat → Char
  | 0 => '0' | 1 => '1' | 2 => '2' | 3 => '3' | 4 => '4'
  | 5 => '5' | 6 => '6' | 7 => '7' | 8 => '8' | 9 => '9'
  | 10 => 'a' | 11 => 'b' | 12 => 'c' | 13 => 'd' | 14 => 'e' | _ => 'f'

/-- One `\uXXXX` escape for a code unit below 0x10000. -/
def uEsc (n : Nat) : List Char :=
  ['\\', 'u', hexDigit (n / 4096 % 16), hexDigit (n / 256 % 16),
   hexDigit (n / 16 % 16), hexDigit (n % 16)]

/-- Escaping of one character inside a JSON string literal, as Python's
`json.encoder` does it: quote, backslash and the named control characters
get two-character escapes, the other control characters get `\uXXXX`, and
— only when `ensure_ascii` is set — every character above `~` is escaped
too (as a surrogate pair beyond the BMP). With `ensure_ascii=False` every
character from space upward other than quote and backslash passes through
literally. -/
def escChar (ensureAscii : Bool) (c : Char) : List Char :=
  if c = '"' then ['\\', '"']
  else if c = '\\' then ['\\', '\\']
  else if c = '\n' then ['\\', 'n']
  else if c = '\t' then ['\\', 't']
  else if c = '\r' then ['\\', 'r']
  else if c = Char.ofNat 8 then ['\\', 'b']
  else if c = Char.ofNat 12 then ['\\', 'f']
  else if c.toNat < 32 then uEsc c.toNat
  else if ensureAscii && 126 < c.toNat then
    if c.toNat < 65536 then uEsc c.toNat
    else uEsc (55296 + (c.toNat - 65536) / 1024) ++ uEsc (56320 + (c.toNat - 65536) % 1024)
  else [c]

/-- A JSON string literal: quoted, with each character escaped. -/
def escString (ensureAscii : Bool) (s : List Char) : List Char :=
  '"' :: (s.map (escChar ensureAscii)).flatten ++ ['"']

/-- The newline-plus-indentation separator `json.dumps(..., indent=2)`
inserts at nesting level `lvl`. -/
def nlIndent (lvl : Nat) : List Char := '\n' :: List.replicate (2 * lvl) ' '

mutual

/-- Python `json.dumps(v, indent=2, ensure_ascii=ea)` at nesting level
`lvl`: the exact serialization `run_phase1` and `run_phase2` write to the
cache (they pass `indent=2, ensure_ascii=False`). -/
def dumpVal (ea : Bool) (lvl : Nat) : PyJson → List Char
  | .null => chars "null"
  | .boolean true => chars "true"
  | .boolean false => chars "false"
  | .int n => intDec n
  | .str s => escString ea s
  | .arr .nil => ['[', ']']
  | .arr (.cons h t) =>
    '[' :: nlIndent (lvl + 1) ++ dumpVal ea (lvl + 1) h ++ dumpRestList ea (lvl + 1) t ++
      nlIndent lvl ++ [']']
  | .obj .nil => ['\x7b', '\x7d']
  | .obj (.cons k v t) =>
    '\x7b' :: nlIndent (lvl + 1) ++ escString ea k ++ ':' :: ' ' :: dumpVal ea (lvl + 1) v ++
      dumpRestObj ea (lvl + 1) t ++ nlIndent lvl ++ ['\x7d']

/-- Remaining items of a non-empty list: `",\n<indent>" + item` each. -/
def dumpRestList (ea : Bool) (lvl : Nat) : PyList → List Char
  | .nil => []
  | .cons h t => ',' :: nlIndent lvl ++ dumpVal ea lvl h ++ dumpRestList ea lvl t

/-- Remaining entries of a non-empty dict: `",\n<indent>" + key + ": " +
value` each. -/
def dumpRestObj (ea : Bool) (lvl : Nat) : PyObj → List Char
  | .nil => []
  | .cons k v t =>
    ',' :: nlIndent lvl ++ escString ea k ++ ':' :: ' ' :: dumpVal ea lvl v ++
      dumpRestObj ea lvl t

end

mutual

/-- Characters of every string value and every dict key occurring in a
document, in serialization order. -/
def strChars : PyJson → List Char
  | .null | .boolean _ | .int _ => []
  | .str s => s
  | .arr a => strCharsList a
  | .obj o => strCharsObj o

/-- Characters of the strings of each value in a list. -/
def strCharsList : PyList → List Char
  | .nil => []
  | .cons h t => strChars h ++ strCharsList t

/-- Characters of the keys and the strings of each value in a dict. -/
def strCharsObj : PyObj → List Char
  | .nil => []
  | .cons k v t => k ++ strChars v ++ strCharsObj t

end

/-- Text encodings relevant to `Path.write_text`. -/
inductive Encoding where
  | utf8
  | latin1
  | cp1252
  | other (name : List Char)
deriving DecidableEq

/-- The encoding Python's `Path.write_text` actually uses: its `encoding`
argument when one is passed, otherwise the platform's preferred (locale)
encoding. -/
def effectiveEncoding : Option Encoding → Encoding → Encoding
  | some e, _ => e
  | none, localeDefault => localeDefault

/-- Filename of the phase-1 cache write (line 192: `cache_dir /
"visual_analysis.json"`). -/
def phase1CacheFileName : List Char := chars "visual_analysis.json"

/-- Filename of the phase-2 cache write (line 300: `cache_dir /
"synthesis.json"`). -/
def phase2CacheFileName : List Char := chars "synthesis.json"

/-- Content of the phase-1 cache write (line 193):
`json.dumps(result, indent=2, ensure_ascii=False)`. -/
def phase1CacheContent (result : PyJson) : List Char := dumpVal false 0 result

/-- Content of the phase-2 cache write (line 301): the same serialization
of phase 2's parsed result. -/
def phase2CacheContent (result : PyJson) : List Char := dumpVal false 0 result

/-- The `encoding` argument of the phase-1 cache `write_text` call (line
193): none is passed. -/
def phase1CacheEncodingArg : Option Encoding := none

/-- The `encoding` argument of the phase-2 cache `write_text` call (line
301): none is passed. -/
def phase2CacheEncodingArg : Option Encoding := none

/-- The `encoding` argument of the phase-3 output `write_text` call (line
435): `encoding="utf-8"` is passed explicitly. -/
def phase3OutputEncodingArg : Option Encoding := some Encoding.utf8

example :
    dumpVal false 0 (.obj (.cons (chars "a") (.arr (.cons (.int 1)
        (.cons (.str (chars "é")) .nil))) .nil)) =
      chars "\x7b\n  \"a\": [\n    1,\n    \"é\"\n  ]\n\x7d" := by decide

example :
    dumpVal true 0 (.str (chars "é")) = chars "\"\\u00e9\"" := by decide

/-- Boolean test that every character of a string is ASCII. -/
def allAscii (s : List Char) : Bool := s.all (fun d => d.toNat < 128)

theorem dropWhile_head_not (p : Char → Bool) (l : List Char) (c : Char)
    (h : (l.dropWhile p).head? = some c) : p c = false := by
  have := List.head?_dropWhile_not p l
  rw [h] at this
  exact this

theorem dropWhile_eq_self (p : Char → Bool) (l : List Char)
    (h : ∀ c, l.head? = some c → p c = false) : l.dropWhile p = l := by
  cases l with
  | nil => rfl
  | cons c r => simp [List.dropWhile_cons, h c rfl]

theorem dropWhile_getLast (p : Char → Bool) (l : List Char)
    (h : l.dropWhile p ≠ []) : (l.dropWhile p).getLast? = l.getLast? := by
  induction l with
  | nil => simp at h
  | cons c r ih =>
    rw [List.dropWhile_cons] at h ⊢
    by_cases hp : p c = true
    · rw [if_pos hp] at h ⊢
      have hr : r ≠ [] := by
        rintro rfl
        simp at h
      rw [ih h]
      cases r with
      | nil => exact absurd rfl hr
      | cons x r' => simp
    · rw [if_neg hp]

theorem stripLt_head (s : List Char) (c : Char)
    (h : (stripLt s).head? = some c) : pyIsSpace c = false :=
  dropWhile_head_not pyIsSpace s c h

theorem stripLt_eq_self (s : List Char)
    (h : ∀ c, s.head? = some c → pyIsSpace c = false) : stripLt s = s :=
  dropWhile_eq_self pyIsSpace s h

theorem stripRt_eq_self (s : List Char)
    (h : ∀ c, s.getLast? = some c → pyIsSpace c = false) : stripRt s = s := by
  unfold stripRt
  rw [stripLt_eq_self s.reverse (fun c hc => h c (by rwa [List.head?_reverse] at hc)),
    List.reverse_reverse]

theorem pyStrip_eq_self (s : List Char)
    (h1 : ∀ c, s.head? = some c → pyIsSpace c = false)
    (h2 : ∀ c, s.getLast? = some c → pyIsSpace c = false) : pyStrip s = s := by
  unfold pyStrip
  rw [stripRt_eq_self s h2, stripLt_eq_self s h1]

theorem pyStrip_head (s : List Char) (c : Char)
    (h : (pyStrip s).head? = some c) : pyIsSpace c = false :=
  stripLt_head (stripRt s) c h

theorem pyStrip_getLast (s : List Char) (c : Char)
    (h : (pyStrip s).getLast? = some c) : pyIsSpace c = false := by
  unfold pyStrip stripLt at h
  have hne : List.dropWhile pyIsSpace (stripRt s) ≠ [] := by
    rintro he
    rw [he] at h
    simp at h
  rw [dropWhile_getLast pyIsSpace (stripRt s) hne] at h
  unfold stripRt stripLt at h
  rw [List.getLast?_reverse] at h
  exact dropWhile_head_not pyIsSpace s.reverse c h

theorem pyStrip_idem (s : List Char) : pyStrip (pyStrip s) = pyStrip s :=
  pyStrip_eq_self (pyStrip s) (pyStrip_head s) (pyStrip_getLast s)

theorem occursIn_append_self (pat : List Char) : ∀ x, occursIn pat (x ++ pat) = true := by
  intro x
  induction x with
  | nil =>
    cases pat with
    | nil => rfl
    | cons c r =>
      show (List.isPrefixOf _ _ || _) = true
      rw [Bool.or_eq_true]
      exact Or.inl (List.isPrefixOf_iff_prefix.mpr (List.prefix_refl _))
  | cons c x ih =>
    show (List.isPrefixOf _ _ || occursIn pat (x ++ pat)) = true
    rw [ih, Bool.or_true]

theorem rsplitBefore_append_pat : ∀ b, rsplitBefore fence (b ++ fence) = b := by
  intro b
  induction b with
  | nil => decide
  | cons c b ih =>
    show rsplitBefore fence (c :: (b ++ fence)) = c :: b
    unfold rsplitBefore
    rw [occursIn_append_self fence b, if_pos rfl, ih]

theorem afterFirstNL_append (l rest : List Char) (h : '\n' ∉ l) :
    afterFirstNL (l ++ '\n' :: rest) = some rest := by
  induction l with
  | nil => simp [afterFirstNL]
  | cons c l ih =>
    have hc : c ≠ '\n' := fun he => h (he ▸ List.mem_cons_self c l)
    simp only [List.cons_append, afterFirstNL, if_neg hc]
    exact ih (fun hm => h (List.mem_cons_of_mem c hm))

theorem afterFirstNL_eq_none_iff (s : List Char) : afterFirstNL s = none ↔ '\n' ∉ s := by
  induction s with
  | nil => simp [afterFirstNL]
  | cons c r ih =>
    by_cases hc : c = '\n'
    · subst hc
      simp [afterFirstNL]
    · simp only [afterFirstNL, if_neg hc, ih, List.mem_cons]
      constructor
      · rintro h (he | hm)
        · exact hc he.symm
        · exact h hm
      · intro h hm
        exact h (Or.inr hm)

theorem getLast_append_fence (x : List Char) : (x ++ fence).getLast? = some backtick := by
  have he : x ++ fence = (x ++ [backtick, backtick]) ++ [backtick] := by simp [fence]
  rw [he, List.getLast?_concat]

theorem fence_notSpace : pyIsSpace backtick = false := by decide

theorem pyStrip_fenced (l b : List Char) :
    pyStrip (fence ++ l ++ '\n' :: (b ++ fence)) = fence ++ l ++ '\n' :: (b ++ fence) := by
  apply pyStrip_eq_self
  · intro c hc
    have hh : (fence ++ l ++ '\n' :: (b ++ fence)).head? = some backtick := rfl
    rw [hh] at hc
    cases hc
    exact fence_notSpace
  · intro c hc
    have he : fence ++ l ++ '\n' :: (b ++ fence) = (fence ++ l ++ '\n' :: b) ++ fence := by
      simp
    rw [he, getLast_append_fence] at hc
    cases hc
    exact fence_notSpace

theorem stripFences_fenced (l b : List Char) (hl : '\n' ∉ l) :
    pyStripFences (fence ++ l ++ '\n' :: (b ++ fence)) = some (pyStrip b) := by
  simp only [pyStripFences]
  rw [pyStrip_fenced l b]
  have hpre : fence.isPrefixOf (fence ++ l ++ '\n' :: (b ++ fence)) = true :=
    List.isPrefixOf_iff_prefix.mpr ⟨l ++ '\n' :: (b ++ fence), by simp⟩
  rw [if_pos hpre]
  have hnl : '\n' ∉ fence ++ l := by
    intro hm
    rcases List.mem_append.mp hm with hf | hf
    · exact absurd hf (by decide)
    · exact hl hf
  rw [afterFirstNL_append (fence ++ l) (b ++ fence) hnl]
  have hsuf : fence.isSuffixOf (b ++ fence) = true :=
    List.isSuffixOf_iff_suffix.mpr (List.suffix_append b fence)
  show some (pyStrip (if fence.isSuffixOf (b ++ fence) = true
      then rsplitBefore fence (b ++ fence) else b ++ fence)) = some (pyStrip b)
  rw [if_pos hsuf, rsplitBefore_append_pat b]

/-- C1: `_strip_fences` removes exactly one leading triple-backtick fence
line (the fence, an arbitrary newline-free info string `l`, and the
newline) and exactly one trailing triple-backtick fence (the final three
characters) when both are present, stripping surrounding whitespace as the
code does; and on text whose stripped form carries no leading fence it
returns the stripped text, so that a second application returns the same
result (idempotence on already-unfenced text). -/
theorem strip_fences_removes_fences_and_is_idempotent (l b t : List Char)
    (hl : '\n' ∉ l) (ht : fence.isPrefixOf (pyStrip t) = false) :
    pyStripFences (fence ++ l ++ '\n' :: (b ++ fence)) = some (pyStrip b) ∧
    pyStripFences t = some (pyStrip t) ∧
    pyStripFences (pyStrip t) = some (pyStrip t) := by
  refine ⟨stripFences_fenced l b hl, ?_, ?_⟩
  · simp only [pyStripFences]
    rw [ht]
    simp
  · simp only [pyStripFences]
    rw [pyStrip_idem t, ht]
    simp

/-- Closed instance of C1: a fenced JSON payload loses its fences and a
plain text is returned stripped, twice over. -/
theorem strip_fences_removes_fences_and_is_idempotent_witness :
    pyStripFences (fence ++ chars "json" ++ '\n' :: (chars "hello\n" ++ fence)) =
      some (pyStrip (chars "hello\n")) ∧
    pyStripFences (chars "plain text") = some (pyStrip (chars "plain text")) ∧
    pyStripFences (pyStrip (chars "plain text")) = some (pyStrip (chars "plain text")) :=
  strip_fences_removes_fences_and_is_idempotent (chars "json") (chars "hello\n")
    (chars "plain text") (by decide) (by decide)

/-- C10 counterexample: on the three-character input of one bare fence,
`text.split("\n", 1)[1]` raises an uncaught `IndexError` (modelled as
`none`), so the function is not total as claimed. -/
theorem strip_fences_not_total_on_bare_fence : pyStripFences (chars "```") = none := by
  decide

/-- C10 as amended: `_strip_fences` returns a result for every input
except exactly those whose stripped text starts with a triple-backtick
fence but contains no newline (such as the bare string of three
backticks), on which the subscript `[1]` raises an uncaught `IndexError`. -/
theorem strip_fences_totality_characterization (t : List Char) :
    pyStripFences t = none ↔
      (fence.isPrefixOf (pyStrip t) = true ∧ '\n' ∉ pyStrip t) := by
  simp only [pyStripFences]
  by_cases hpre : fence.isPrefixOf (pyStrip t) = true
  · rw [if_pos hpre]
    cases han : afterFirstNL (pyStrip t) with
    | none => simp [hpre, (afterFirstNL_eq_none_iff _).mp han]
    | some t1 =>
      have hnn : ¬ ('\n' ∉ pyStrip t) := by
        intro h
        rw [(afterFirstNL_eq_none_iff _).mpr h] at han
        exact Option.noConfusion han
      simp [hnn]
  · rw [if_neg hpre]
    simp [hpre]

theorem occursIn_append_right (pat x y : List Char) (h : occursIn pat y = true) :
    occursIn pat (x ++ y) = true := by
  induction x with
  | nil => exact h
  | cons c x ih =>
    show (List.isPrefixOf _ _ || occursIn pat (x ++ y)) = true
    rw [ih, Bool.or_true]

/-- C8: the elapsed-time formatter renders a whole-second duration below
60 as `"{d}s"` and one of 60 or more as `"{d // 60}m {d % 60}s"`; in
particular 60 renders as `"1m 0s"` and 125 as `"2m 5s"`. -/
theorem elapsed_format_spec (d : Nat) :
    (d < 60 → elapsedFormat d = natDec d ++ chars "s") ∧
    (60 ≤ d →
      elapsedFormat d = natDec (d / 60) ++ chars "m " ++ natDec (d % 60) ++ chars "s") ∧
    elapsedFormat 60 = chars "1m 0s" ∧
    elapsedFormat 125 = chars "2m 5s" := by
  refine ⟨fun h => ?_, fun h => ?_, by decide, by decide⟩
  · unfold elapsedFormat
    rw [if_pos h]
  · unfold elapsedFormat
    rw [if_neg (Nat.not_lt.mpr h)]

/-- Closed instance of C8 at 45 and 125 seconds. -/
theorem elapsed_format_spec_witness :
    elapsedFormat 45 = chars "45s" ∧ elapsedFormat 125 = chars "2m 5s" :=
  ⟨((elapsed_format_spec 45).1 (by decide)).trans (by decide),
   (elapsed_format_spec 125).2.2.2⟩

theorem stream_chunks_flatten (st : StreamSt) (l : List (Option (List Char))) :
    (List.foldl streamStep st l).chunks.flatten =
      st.chunks.flatten ++ (l.filterMap id).flatten := by
  induction l generalizing st with
  | nil => simp
  | cons c rest ih =>
    cases c with
    | none => simp [List.foldl_cons, streamStep, ih]
    | some t =>
      rw [List.foldl_cons, ih (streamStep st (some t))]
      have hc : (streamStep st (some t)).chunks.flatten = st.chunks.flatten ++ t := by
        simp only [streamStep]
        by_cases he : t.isEmpty
        · rw [if_pos he, List.isEmpty_iff.mp he]
          simp
        · rw [if_neg he]
          by_cases h2 : 2000 ≤ st.charCount + t.length - st.lastReport
          · rw [if_pos h2]
            simp
          · rw [if_neg h2]
            simp
      rw [hc]
      simp [List.append_assoc]

/-- C7: the string `_stream_gemini` returns is the plain concatenation of
all text fragments of the stream in arrival order, whatever the fragment
boundaries (chunks without text contribute nothing). -/
theorem stream_accumulator_concatenates (stream : List (Option (List Char))) :
    streamResult stream = (stream.filterMap id).flatten := by
  unfold streamResult streamGemini
  rw [stream_chunks_flatten streamInit stream]
  simp [streamInit]

/-- C3: credential validation passes exactly when the Gemini key is
present whenever the requested subset contains phase 1 or phase 2 and the
OpenAI key is present whenever it contains phase 3; a failed check makes
`main` exit with code 1 having performed no action at all; and a
phase-3-only run with an OpenAI key but no Gemini key passes validation. -/
theorem credential_validation_spec (a : Args) :
    (credCheck a = none ↔
      ((1 ∈ phasesToRun a.phase ∨ 2 ∈ phasesToRun a.phase) → a.geminiKey = true) ∧
      (3 ∈ phasesToRun a.phase → a.openaiKey = true)) ∧
    (∀ m, credCheck a = some m →
      mainRun a = ([], some m) ∧ exitCodeOf (mainRun a).2 = 1) ∧
    (a.phase = PhaseSel.p3 → a.openaiKey = true → credCheck a = none) := by
  obtain ⟨ph, gk, ok, ve, se, cv, cs, cd, vp, sp⟩ := a
  cases ph <;> cases gk <;> cases ok <;>
    simp [credCheck, phasesToRun, mainRun, exitCodeOf]

/-- Closed instance of C3: a phase-3-only run with only the OpenAI key
passes validation, and a phase-1 run without the Gemini key performs
nothing and exits 1. -/
theorem credential_validation_spec_witness :
    credCheck ⟨PhaseSel.p3, false, true, true, true, false, true, [], [], []⟩ = none ∧
    mainRun ⟨PhaseSel.p1, false, true, true, true, false, false, [], [], []⟩ =
      ([], some ErrMsg.missingGeminiKey) :=
  ⟨(credential_validation_spec ⟨PhaseSel.p3, false, true, true, true, false, true, [], [], []⟩).2.2
      rfl rfl,
   ((credential_validation_spec ⟨PhaseSel.p1, false, true, true, true, false, false, [], [], []⟩).2.1
      ErrMsg.missingGeminiKey (by decide)).1⟩

/-- C2: a run requesting only phase 3 with no cached synthesis exits with
code 1 and the diagnostic that names phase 2 (its text contains "Run
phase 2 first"); a run requesting only phase 2 with no cached visual
analysis exits with code 1 and the diagnostic that names phase 1. -/
theorem missing_prerequisite_errors (a b : Args)
    (ha3 : a.phase = PhaseSel.p3) (haO : a.openaiKey = true)
    (haV : a.videoExists = true) (haS : a.srtExists = true)
    (haC : a.cacheHasSynthesis = false)
    (hb2 : b.phase = PhaseSel.p2) (hbG : b.geminiKey = true)
    (hbV : b.videoExists = true) (hbS : b.srtExists = true)
    (hbC : b.cacheHasVisual = false) :
    ((mainRun a).2 = some ErrMsg.phase3NeedsSynthesis ∧
     exitCodeOf (mainRun a).2 = 1 ∧
     occursIn (chars "Run phase 2 first") (errMsgText a ErrMsg.phase3NeedsSynthesis) = true) ∧
    ((mainRun b).2 = some ErrMsg.phase2NeedsVisual ∧
     exitCodeOf (mainRun b).2 = 1 ∧
     occursIn (chars "Run phase 1 first") (errMsgText b ErrMsg.phase2NeedsVisual) = true) := by
  obtain ⟨pa, ga, oa, va, sa, cva, csa, cda, vpa, spa⟩ := a
  obtain ⟨pb, gb, ob, vb, sb, cvb, csb, cdb, vpb, spb⟩ := b
  simp only at ha3 haO haV haS haC hb2 hbG hbV hbS hbC
  subst ha3 haO haV haS haC hb2 hbG hbV hbS hbC
  refine ⟨⟨?_, ?_, ?_⟩, ⟨?_, ?_, ?_⟩⟩
  · cases cva <;>
      simp [mainRun, credCheck, fileCheck, stage1, stage2, phasesToRun]
  · cases cva <;>
      simp [mainRun, credCheck, fileCheck, stage1, stage2, phasesToRun, exitCodeOf]
  · exact occursIn_append_right _ _ _ (by decide)
  · simp [mainRun, credCheck, fileCheck, stage1, stage2, phasesToRun]
  · simp [mainRun, credCheck, fileCheck, stage1, stage2, phasesToRun, exitCodeOf]
  · exact occursIn_append_right _ _ _ (by decide)

/-- Closed instance of C2 at concrete environments. -/
theorem missing_prerequisite_errors_witness :
    ((mainRun ⟨PhaseSel.p3, false, true, true, true, false, false,
        chars "/tmp/.cache", chars "/tmp/a.mp4", chars "/tmp/a.srt"⟩).2 =
      some ErrMsg.phase3NeedsSynthesis ∧
     exitCodeOf (mainRun ⟨PhaseSel.p3, false, true, true, true, false, false,
        chars "/tmp/.cache", chars "/tmp/a.mp4", chars "/tmp/a.srt"⟩).2 = 1 ∧
     occursIn (chars "Run phase 2 first")
       (errMsgText ⟨PhaseSel.p3, false, true, true, true, false, false,
         chars "/tmp/.cache", chars "/tmp/a.mp4", chars "/tmp/a.srt"⟩
         ErrMsg.phase3NeedsSynthesis) = true) ∧
    ((mainRun ⟨PhaseSel.p2, true, false, true, true, false, false,
        chars "/tmp/.cache", chars "/tmp/a.mp4", chars "/tmp/a.srt"⟩).2 =
      some ErrMsg.phase2NeedsVisual ∧
     exitCodeOf (mainRun ⟨PhaseSel.p2, true, false, true, true, false, false,
        chars "/tmp/.cache", chars "/tmp/a.mp4", chars "/tmp/a.srt"⟩).2 = 1 ∧
     occursIn (chars "Run phase 1 first")
       (errMsgText ⟨PhaseSel.p2, true, false, true, true, false, false,
         chars "/tmp/.cache", chars "/tmp/a.mp4", chars "/tmp/a.srt"⟩
         ErrMsg.phase2NeedsVisual) = true) :=
  missing_prerequisite_errors _ _ rfl rfl rfl rfl rfl rfl rfl rfl rfl rfl

/-- C5: a run requesting only phase 2 with a cached visual analysis loads
the cached document, hands exactly it to phase 2, and never invokes phase
1's video-upload path: the complete action trace is the cache-directory
mkdir, the cache load, and phase 2 run on the loaded document. -/
theorem phase2_only_uses_cached_visual (a : Args)
    (h2 : a.phase = PhaseSel.p2) (hg : a.geminiKey = true)
    (hv : a.videoExists = true) (hs : a.srtExists = true)
    (hc : a.cacheHasVisual = true) :
    mainRun a = ([DriverAct.mkCacheDir, DriverAct.loadCachedVisual,
      DriverAct.runPhase2 (some Doc.fromCacheVisual)], none) ∧
    DriverAct.runPhase1 ∉ (mainRun a).1 := by
  obtain ⟨ph, gk, ok, ve, se, cv, cs, cd, vp, sp⟩ := a
  simp only at h2 hg hv hs hc
  subst h2 hg hv hs hc
  constructor
  · simp [mainRun, credCheck, fileCheck, stage1, stage2, phasesToRun]
  · simp [mainRun, credCheck, fileCheck, stage1, stage2, phasesToRun]

/-- Closed instance of C5 at a concrete environment. -/
theorem phase2_only_uses_cached_visual_witness :
    mainRun ⟨PhaseSel.p2, true, false, true, true, true, false, [], [], []⟩ =
      ([DriverAct.mkCacheDir, DriverAct.loadCachedVisual,
        DriverAct.runPhase2 (some Doc.fromCacheVisual)], none) ∧
    DriverAct.runPhase1 ∉
      (mainRun ⟨PhaseSel.p2, true, false, true, true, true, false, [], [], []⟩).1 :=
  phase2_only_uses_cached_visual _ rfl rfl rfl rfl rfl

/-- C4: promoting onto a name whose destination directory already exists
exits with code 1 and performs no filesystem mutation at all beyond the
existence check — the mutation trace is empty. -/
theorem promote_existing_dest_aborts (e : PromoteEnv) (h : e.destExists = true) :
    promote e = ([], some PromoteErr.destExists) ∧
    promoteExit (promote e).2 = 1 := by
  obtain ⟨n, de, cv, cs, d, ts, pp, cd⟩ := e
  simp only at h
  subst h
  exact ⟨by simp [promote], by simp [promote, promoteExit]⟩

/-- Closed instance of C4 at a concrete environment. -/
theorem promote_existing_dest_aborts_witness :
    promote ⟨chars "demo", true, true, true, [], [], [], []⟩ =
      ([], some PromoteErr.destExists) ∧
    promoteExit (promote ⟨chars "demo", true, true, true, [], [], [], []⟩).2 = 1 :=
  promote_existing_dest_aborts _ rfl

/-- C6: promoting from a cache without synthesis.json succeeds (no
error), writes a README whose lines omit the synthesis bullet while
containing the always-present PRD and metadata bullets, and writes a
metadata document whose artifacts list excludes "synthesis.json". -/
theorem promote_without_synthesis_spec (e : PromoteEnv)
    (hd : e.destExists = false) (hs : e.cacheHasSynthesis = false) :
    (promote e).2 = none ∧
    synBullet ∉ readmeLines e (copiedArtifacts e) ∧
    prdBullet ∈ readmeLines e (copiedArtifacts e) ∧
    metaBullet ∈ readmeLines e (copiedArtifacts e) ∧
    chars "synthesis.json" ∉ copiedArtifacts e ∧
    FsOp.writeMetadata ⟨e.name, e.timestampStr, e.planPathStr, e.cacheDirStr,
      copiedArtifacts e⟩ ∈ (promote e).1 ∧
    FsOp.writeReadme (readmeLines e (copiedArtifacts e)) ∈ (promote e).1 := by
  obtain ⟨n, de, cv, cs, d, ts, pp, cd⟩ := e
  simp only at hd hs
  subst hd hs
  have h1 : synBullet ≠ chars "# " ++ n := by
    intro hx
    have hh := congrArg List.head? hx
    rw [show (chars "# " ++ n).head? = some '#' from rfl] at hh
    exact absurd hh (by decide)
  have h2 : synBullet ≠ chars "Engineering plan promoted on " ++ (d ++ chars ".") := by
    intro hx
    have hh := congrArg List.head? hx
    rw [show (chars "Engineering plan promoted on " ++ (d ++ chars ".")).head? =
      some 'E' from rfl] at hh
    exact absurd hh (by decide)
  have h3 : synBullet ≠ chars "" := by decide
  have h4 : synBullet ≠ prdBullet := by decide
  have h5 : synBullet ≠ vaBullet := by decide
  have h6 : synBullet ≠ metaBullet := by decide
  have h7 : synBullet ≠ chars "## Contents" := by decide
  have h8 : chars "synthesis.json" ≠ chars "visual_analysis.json" := by decide
  refine ⟨?_, ?_, ?_, ?_, ?_, ?_, ?_⟩ <;>
    cases cv <;>
      simp [promote, copiedArtifacts, artifactNames, cacheHasFile, readmeLines,
        h1, h2, h3, h4, h5, h6, h7, h8]

/-- Closed instance of C6 at a concrete environment with only the visual
analysis cached. -/
theorem promote_without_synthesis_spec_witness :
    (promote ⟨chars "demo", false, true, false, chars "2026-10-12",
      chars "2026-10-12T00:00:00", chars "/p/plan.md", chars "/p/.cache"⟩).2 = none ∧
    synBullet ∉ readmeLines ⟨chars "demo", false, true, false, chars "2026-10-12",
      chars "2026-10-12T00:00:00", chars "/p/plan.md", chars "/p/.cache"⟩
      (copiedArtifacts ⟨chars "demo", false, true, false, chars "2026-10-12",
        chars "2026-10-12T00:00:00", chars "/p/plan.md", chars "/p/.cache"⟩) ∧
    chars "synthesis.json" ∉ copiedArtifacts ⟨chars "demo", false, true, false,
      chars "2026-10-12", chars "2026-10-12T00:00:00", chars "/p/plan.md",
      chars "/p/.cache"⟩ :=
  ⟨(promote_without_synthesis_spec _ rfl rfl).1,
   (promote_without_synthesis_spec _ rfl rfl).2.1,
   (promote_without_synthesis_spec _ rfl rfl).2.2.2.2.1⟩


theorem not_mem_ascii (s : List Char) (c : Char) (hc : 127 < c.toNat)
    (h : allAscii s = true) : c ∉ s := by
  intro hm
  have hd := List.all_eq_true.mp h c hm
  simp at hd
  omega

theorem digitChar_ascii (d : Nat) : (digitChar d).toNat < 128 := by
  unfold digitChar
  split <;> decide

theorem hexDigit_ascii (d : Nat) : (hexDigit d).toNat < 128 := by
  unfold hexDigit
  split <;> decide

theorem allAscii_cons (c : Char) (s : List Char) :
    allAscii (c :: s) = (decide (c.toNat < 128) && allAscii s) := List.all_cons

theorem natDecAux_allAscii :
    ∀ fuel n acc, allAscii acc = true → allAscii (natDecAux fuel n acc) = true := by
  intro fuel
  induction fuel with
  | zero =>
    intro n acc h
    simpa [natDecAux] using h
  | succ fuel ih =>
    intro n acc h
    cases n with
    | zero => simpa [natDecAux] using h
    | succ n =>
      rw [show natDecAux (fuel + 1) (n + 1) acc =
        natDecAux fuel ((n + 1) / 10) (digitChar ((n + 1) % 10) :: acc) from rfl]
      apply ih
      rw [allAscii_cons, h, decide_eq_true (digitChar_ascii ((n + 1) % 10))]
      rfl

theorem natDec_allAscii (n : Nat) : allAscii (natDec n) = true := by
  unfold natDec
  split
  · decide
  · exact natDecAux_allAscii n n [] (by decide)

theorem intDec_allAscii (n : Int) : allAscii (intDec n) = true := by
  cases n with
  | ofNat m => exact natDec_allAscii m
  | negSucc m =>
    show allAscii ('-' :: natDec (m + 1)) = true
    rw [allAscii_cons, natDec_allAscii (m + 1)]
    decide

theorem uEsc_allAscii (n : Nat) : allAscii (uEsc n) = true := by
  have h1 := hexDigit_ascii (n / 4096 % 16)
  have h2 := hexDigit_ascii (n / 256 % 16)
  have h3 := hexDigit_ascii (n / 16 % 16)
  have h4 := hexDigit_ascii (n % 16)
  simp [uEsc, allAscii]
  exact ⟨h1, h2, h3, h4⟩

theorem not_mem_nlIndent (lvl : Nat) (c : Char) (hc : 127 < c.toNat) :
    c ∉ nlIndent lvl := by
  intro hm
  rcases List.mem_cons.mp hm with h | h
  · subst h
    exact absurd hc (by decide)
  · have := (List.eq_of_mem_replicate h)
    subst this
    exact absurd hc (by decide)

theorem escChar_eq_self (d : Char) (h1 : d ≠ '"') (h2 : d ≠ '\\')
    (h3 : d ≠ '\n') (h4 : d ≠ '\t') (h5 : d ≠ '\r')
    (h6 : d ≠ Char.ofNat 8) (h7 : d ≠ Char.ofNat 12)
    (h8 : ¬ d.toNat < 32) : escChar false d = [d] := by
  unfold escChar
  rw [if_neg h1, if_neg h2, if_neg h3, if_neg h4, if_neg h5, if_neg h6, if_neg h7,
    if_neg h8, if_neg (by simp)]

theorem escChar_nonAscii (c : Char) (h : 127 < c.toNat) : escChar false c = [c] :=
  escChar_eq_self c
    (fun he => absurd (he ▸ h) (by decide)) (fun he => absurd (he ▸ h) (by decide))
    (fun he => absurd (he ▸ h) (by decide)) (fun he => absurd (he ▸ h) (by decide))
    (fun he => absurd (he ▸ h) (by decide)) (fun he => absurd (he ▸ h) (by decide))
    (fun he => absurd (he ▸ h) (by decide)) (by omega)

theorem escChar_cases (d : Char) :
    escChar false d = [d] ∨ allAscii (escChar false d) = true := by
  by_cases h1 : d = '"'
  · subst h1; right; decide
  by_cases h2 : d = '\\'
  · subst h2; right; decide
  by_cases h3 : d = '\n'
  · subst h3; right; decide
  by_cases h4 : d = '\t'
  · subst h4; right; decide
  by_cases h5 : d = '\r'
  · subst h5; right; decide
  by_cases h6 : d = Char.ofNat 8
  · subst h6; right; decide
  by_cases h7 : d = Char.ofNat 12
  · subst h7; right; decide
  by_cases h8 : d.toNat < 32
  · right
    unfold escChar
    rw [if_neg h1, if_neg h2, if_neg h3, if_neg h4, if_neg h5, if_neg h6, if_neg h7,
      if_pos h8]
    exact uEsc_allAscii _
  · left
    exact escChar_eq_self d h1 h2 h3 h4 h5 h6 h7 h8

theorem escChar_mem (d c : Char) (hm : c ∈ escChar false d) :
    c = d ∨ c.toNat < 128 := by
  rcases escChar_cases d with he | he
  · rw [he] at hm
    left
    exact List.mem_singleton.mp hm
  · right
    have hd := List.all_eq_true.mp he c hm
    simp at hd
    exact hd

theorem escString_nonAscii_mem (s : List Char) (c : Char) (hc : 127 < c.toNat) :
    c ∈ escString false s ↔ c ∈ s := by
  unfold escString
  constructor
  · intro hm
    rcases List.mem_cons.mp hm with h1 | h1
    · subst h1
      exact absurd hc (by decide)
    rcases List.mem_append.mp h1 with h2 | h2
    · rcases List.mem_flatten.mp h2 with ⟨piece, hp, hcp⟩
      rcases List.mem_map.mp hp with ⟨d, hd, rfl⟩
      rcases escChar_mem d c hcp with rfl | hascii
      · exact hd
      · omega
    · rw [List.mem_singleton.mp h2] at hc
      exact absurd hc (by decide)
  · intro hm
    apply List.mem_cons_of_mem
    apply List.mem_append_left
    apply List.mem_flatten.mpr
    refine ⟨escChar false c, List.mem_map_of_mem _ hm, ?_⟩
    rw [escChar_nonAscii c hc]
    exact List.mem_singleton_self c

mutual

theorem dumpVal_nonAscii_mem (c : Char) (hc : 127 < c.toNat) (lvl : Nat) :
    ∀ j : PyJson, c ∈ dumpVal false lvl j ↔ c ∈ strChars j
  | .null => by
    have h := not_mem_ascii (chars "null") c hc (by decide)
    simp [dumpVal, strChars, h]
  | .boolean true => by
    have h := not_mem_ascii (chars "true") c hc (by decide)
    simp [dumpVal, strChars, h]
  | .boolean false => by
    have h := not_mem_ascii (chars "false") c hc (by decide)
    simp [dumpVal, strChars, h]
  | .int n => by
    have h := not_mem_ascii (intDec n) c hc (intDec_allAscii n)
    simp [dumpVal, strChars, h]
  | .str s => by
    rw [show dumpVal false lvl (.str s) = escString false s from rfl]
    exact escString_nonAscii_mem s c hc
  | .arr .nil => by
    have h := not_mem_ascii ['[', ']'] c hc (by decide)
    simp [dumpVal, strChars, strCharsList, h]
  | .arr (.cons h t) => by
    have ih1 := dumpVal_nonAscii_mem c hc (lvl + 1) h
    have ih2 := dumpRestList_nonAscii_mem c hc (lvl + 1) t
    have hn1 := not_mem_nlIndent (lvl + 1) c hc
    have hn2 := not_mem_nlIndent lvl c hc
    have hb1 : c ≠ '[' := fun he => absurd (he ▸ hc) (by decide)
    have hb2 : c ≠ ']' := fun he => absurd (he ▸ hc) (by decide)
    simp [dumpVal, strChars, strCharsList, ih1, ih2, hn1, hn2, hb1, hb2]
  | .obj .nil => by
    have h := not_mem_ascii ['\x7b', '\x7d'] c hc (by decide)
    simp [dumpVal, strChars, strCharsObj, h]
  | .obj (.cons k v t) => by
    have ih1 := dumpVal_nonAscii_mem c hc (lvl + 1) v
    have ih2 := dumpRestObj_nonAscii_mem c hc (lvl + 1) t
    have ihk := escString_nonAscii_mem k c hc
    have hn1 := not_mem_nlIndent (lvl + 1) c hc
    have hn2 := not_mem_nlIndent lvl c hc
    have hb1 : c ≠ '\x7b' := fun he => absurd (he ▸ hc) (by decide)
    have hb2 : c ≠ '\x7d' := fun he => absurd (he ▸ hc) (by decide)
    have hb3 : c ≠ ':' := fun he => absurd (he ▸ hc) (by decide)
    have hb4 : c ≠ ' ' := fun he => absurd (he ▸ hc) (by decide)
    simp [dumpVal, strChars, strCharsObj, ih1, ih2, ihk, hn1, hn2, hb1, hb2, hb3, hb4]

theorem dumpRestList_nonAscii_mem (c : Char) (hc : 127 < c.toNat) (lvl : Nat) :
    ∀ a : PyList, c ∈ dumpRestList false lvl a ↔ c ∈ strCharsList a
  | .nil => by simp [dumpRestList, strCharsList]
  | .cons h t => by
    have ih1 := dumpVal_nonAscii_mem c hc lvl h
    have ih2 := dumpRestList_nonAscii_mem c hc lvl t
    have hn1 := not_mem_nlIndent lvl c hc
    have hb1 : c ≠ ',' := fun he => absurd (he ▸ hc) (by decide)
    simp [dumpRestList, strCharsList, ih1, ih2, hn1, hb1]

theorem dumpRestObj_nonAscii_mem (c : Char) (hc : 127 < c.toNat) (lvl : Nat) :
    ∀ o : PyObj, c ∈ dumpRestObj false lvl o ↔ c ∈ strCharsObj o
  | .nil => by simp [dumpRestObj, strCharsObj]
  | .cons k v t => by
    have ih1 := dumpVal_nonAscii_mem c hc lvl v
    have ih2 := dumpRestObj_nonAscii_mem c hc lvl t
    have ihk := escString_nonAscii_mem k c hc
    have hn1 := not_mem_nlIndent lvl c hc
    have hb1 : c ≠ ',' := fun he => absurd (he ▸ hc) (by decide)
    have hb3 : c ≠ ':' := fun he => absurd (he ▸ hc) (by decide)
    have hb4 : c ≠ ' ' := fun he => absurd (he ▸ hc) (by decide)
    simp [dumpRestObj, strCharsObj, ih1, ih2, ihk, hn1, hb1, hb3, hb4]

end

/-- C9 counterexample: the cache `write_text` calls (lines 193 and 301)
pass no `encoding` argument, so the cache file is written in the
platform's preferred encoding — on a platform whose preferred encoding is
Latin-1 that is Latin-1, not UTF-8 as the claim states (the phase-3
output write at line 435, by contrast, forces UTF-8 explicitly). -/
theorem cache_write_encoding_not_forced_utf8 :
    effectiveEncoding phase1CacheEncodingArg Encoding.latin1 = Encoding.latin1 ∧
    effectiveEncoding phase2CacheEncodingArg Encoding.latin1 = Encoding.latin1 ∧
    Encoding.latin1 ≠ Encoding.utf8 ∧
    effectiveEncoding phase3OutputEncodingArg Encoding.latin1 = Encoding.utf8 := by
  refine ⟨rfl, rfl, ?_, rfl⟩
  intro h
  exact Encoding.noConfusion h

/-- C9 as amended: each cache file is written under its fixed name as
pretty-printed `json.dumps(..., indent=2, ensure_ascii=False)` output in
which every non-ASCII character of the document appears literally (a
non-ASCII character occurs in the serialization exactly where it occurs
in the document's strings — no ASCII-escaping); the write uses the
platform's preferred text encoding rather than forcing UTF-8. The last
conjunct exhibits the indent-2 pretty-printing on a concrete document. -/
theorem cache_write_pretty_printed_non_ascii_literal (res : PyJson) (loc : Encoding)
    (c : Char) (hc : 127 < c.toNat) :
    phase1CacheFileName = chars "visual_analysis.json" ∧
    phase2CacheFileName = chars "synthesis.json" ∧
    phase1CacheContent res = dumpVal false 0 res ∧
    phase2CacheContent res = dumpVal false 0 res ∧
    (c ∈ phase1CacheContent res ↔ c ∈ strChars res) ∧
    (c ∈ phase2CacheContent res ↔ c ∈ strChars res) ∧
    effectiveEncoding phase1CacheEncodingArg loc = loc ∧
    effectiveEncoding phase2CacheEncodingArg loc = loc ∧
    dumpVal false 0 (.obj (.cons (chars "a") (.arr (.cons (.int 1)
        (.cons (.str (chars "é")) .nil))) .nil)) =
      chars "\x7b\n  \"a\": [\n    1,\n    \"é\"\n  ]\n\x7d" :=
  ⟨rfl, rfl, rfl, rfl, dumpVal_nonAscii_mem c hc 0 res, dumpVal_nonAscii_mem c hc 0 res,
   rfl, rfl, by decide⟩

/-- Closed instance of C9's amended statement: the non-ASCII character é
appears literally in the serialized cache content of a document holding
it. -/
theorem cache_write_pretty_printed_non_ascii_literal_witness :
    'é' ∈ phase1CacheContent (.str (chars "é")) ↔ 'é' ∈ strChars (.str (chars "é")) :=
  (cache_write_pretty_printed_non_ascii_literal (.str (chars "é")) Encoding.utf8 'é'
    (by decide)).2.2.2.2.1
